import Mathlib

/-!
Shallow embedding of the MarketWatch activity-feed scraper
(`competition_scraper.py`, `marketwatch_scraper.py`).

Python strings are modeled as `List Char` (`PyStr`); Python `int` as `Int`
(share counts produced by the parsers are non-negative); Python `float`
snapshot values, which the core only copies around, as `Rat`;
`datetime` values as the record `PyDateTime` (the scraper never uses
seconds); raised-and-caught exceptions as `Option` with the `except`
branch supplying the fallback value.
-/

namespace MW

/-- Python `str`, modeled as its list of characters. -/
abbrev PyStr := List Char

/-- Whitespace test used by Python `str.strip` / `str.split()` / `\s`
(modeled on the ASCII whitespace characters). -/
def isSpace (c : Char) : Bool := c.isWhitespace

/-- Python `str.strip()`: drop whitespace from both ends. -/
def strip (s : PyStr) : PyStr :=
  (((s.dropWhile isSpace).reverse).dropWhile isSpace).reverse

/-- Python `str.replace(old, new)` for a single-character `old`:
every occurrence of `c` is replaced by `repl`, left to right, without
rescanning the replacement. -/
def replaceChar (c : Char) (repl : PyStr) : PyStr → PyStr
  | [] => []
  | d :: ds => if d == c then repl ++ replaceChar c repl ds else d :: replaceChar c repl ds

/-- Python `date_str.replace(" ET", "")`: remove every (non-overlapping,
left-to-right) occurrence of the three-character pattern `" ET"`. -/
def removeSpaceET : PyStr → PyStr
  | ' ' :: 'E' :: 'T' :: rest => removeSpaceET rest
  | c :: cs => c :: removeSpaceET cs
  | [] => []

/-- Python `str.split(sep)` for a single-character separator: splits at every
occurrence, keeping empty fields (`"".split(" ") == [""]`). -/
def splitOnChar (sep : Char) : PyStr → List PyStr
  | [] => [[]]
  | c :: cs =>
    if c == sep then [] :: splitOnChar sep cs
    else
      match splitOnChar sep cs with
      | [] => [[c]]
      | p :: ps => (c :: p) :: ps

/-- Helper for `pySplitWs`: accumulates the current token in reverse. -/
def pySplitWsAux : PyStr → PyStr → List PyStr
  | acc, [] => if acc.isEmpty then [] else [acc.reverse]
  | acc, c :: cs =>
    if isSpace c then (if acc.isEmpty then [] else [acc.reverse]) ++ pySplitWsAux [] cs
    else pySplitWsAux (c :: acc) cs

/-- Python `str.split()` with no argument: split on runs of whitespace,
producing no empty tokens. -/
def pySplitWs (s : PyStr) : List PyStr := pySplitWsAux [] s

/-- Python substring test `sub in s`. -/
def containsSub (sub : PyStr) : PyStr → Bool
  | [] => sub.isPrefixOf []
  | c :: cs => sub.isPrefixOf (c :: cs) || containsSub sub cs

/-- ASCII decimal digit (models Python `str.isdigit` / regex `\d` on the
ASCII fragment the site produces). -/
def isDigitChar (c : Char) : Bool := c.isDigit

/-- Numeric value of a decimal digit character. -/
def digitVal (c : Char) : Nat := c.toNat - '0'.toNat

/-- Base-10 value of an all-digit string (Python `int` on such a string). -/
def natOfDigits (s : PyStr) : Nat := s.foldl (fun n c => 10 * n + digitVal c) 0

/-- Python `str.isdigit()` on the ASCII fragment: non-empty and all digits. -/
def pyIsDigit (s : PyStr) : Bool := !s.isEmpty && s.all isDigitChar

/-- Python `str.lower()` (character-wise). -/
def toLowerStr (s : PyStr) : PyStr := s.map Char.toLower

/-- Python `str.zfill(2)`: left-pad with `'0'` to length 2, keeping a
leading sign in front of the padding. -/
def zfill2 (s : PyStr) : PyStr :=
  match s with
  | [] => ['0', '0']
  | [c] => if c == '-' || c == '+' then [c, '0'] else ['0', c]
  | _ => s

/-- Python `datetime` restricted to the fields the scraper uses
(`strptime` with format `"%Y-%m-%d %I:%M %p"` always yields zero seconds). -/
structure PyDateTime where
  year : Nat
  month : Nat
  day : Nat
  hour : Nat
  minute : Nat
deriving DecidableEq, Repr

/-- Python `datetime.min` (= `datetime(1, 1, 1, 0, 0)`), the sentinel for
unparseable timestamps. -/
def datetimeMin : PyDateTime := ⟨1, 1, 1, 0, 0⟩

/-- Python `datetime` comparison: lexicographic on
(year, month, day, hour, minute). -/
def dtLe (a b : PyDateTime) : Bool :=
  decide (a.year < b.year ∨ a.year = b.year ∧
    (a.month < b.month ∨ a.month = b.month ∧
      (a.day < b.day ∨ a.day = b.day ∧
        (a.hour < b.hour ∨ a.hour = b.hour ∧ a.minute ≤ b.minute))))

/-- Gregorian leap-year rule, as in Python `datetime`. -/
def isLeapYear (y : Nat) : Bool := y % 4 == 0 && (y % 100 != 0 || y % 400 == 0)

/-- Days in a month, as validated by the Python `datetime` constructor. -/
def daysInMonth (y m : Nat) : Nat :=
  if m == 2 then (if isLeapYear y then 29 else 28)
  else if m == 4 || m == 6 || m == 9 || m == 11 then 30
  else 31

/-!
Model of `datetime.strptime(full_date_str, "%Y-%m-%d %I:%M %p")`.
CPython compiles the format to the regex
`(\d\d\d\d)-(1[0-2]|0[1-9]|[1-9])-(3[01]|[12]\d|0[1-9]|[1-9])\s+(1[0-2]|0[1-9]|[1-9]):([0-5]\d|\d)\s+(AM|PM)`
(ignore-case, whole string), with ordered alternation and backtracking,
then builds `datetime(year, month, day, hour12± , minute)`, which raises
`ValueError` for a day that does not exist in the month.
The stages below encode exactly that: each alternation tries the longer
alternative with its full continuation, falling back to the shorter one.
-/

/-- Final constructor step of `strptime`: `datetime(...)` validates the day
against the month (and the year against `MINYEAR = 1`). -/
def stMkDateTime (y mo dy hh mm : Nat) : Option PyDateTime :=
  if 1 ≤ y && dy ≤ daysInMonth y mo then some ⟨y, mo, dy, hh, mm⟩ else none

/-- Tail of the format: `\s+` then `AM|PM` (case-insensitive) then end of
input; converts the 12-hour value to a 24-hour value. -/
def stAmPm (y mo dy h12 mm : Nat) (cs : PyStr) : Option PyDateTime :=
  match cs with
  | c :: rest =>
    if isSpace c then
      match rest.dropWhile isSpace with
      | [a, m] =>
        if (a == 'A' || a == 'a') && (m == 'M' || m == 'm') then
          stMkDateTime y mo dy (if h12 == 12 then 0 else h12) mm
        else if (a == 'P' || a == 'p') && (m == 'M' || m == 'm') then
          stMkDateTime y mo dy (if h12 == 12 then 12 else h12 + 12) mm
        else none
      | _ => none
    else none
  | [] => none

/-- `%M`: `[0-5]\d` preferred, else `\d`, with regex backtracking into the
rest of the pattern. -/
def stMinute (y mo dy h12 : Nat) (cs : PyStr) : Option PyDateTime :=
  (match cs with
   | c1 :: c2 :: rest =>
     if (isDigitChar c1 && decide (c1 ≤ '5')) && isDigitChar c2 then
       stAmPm y mo dy h12 (10 * digitVal c1 + digitVal c2) rest
     else none
   | _ => none) <|>
  (match cs with
   | c1 :: rest => if isDigitChar c1 then stAmPm y mo dy h12 (digitVal c1) rest else none
   | [] => none)

/-- Literal `:` of the format, then `%M`. -/
def stColonMinute (y mo dy h12 : Nat) (cs : PyStr) : Option PyDateTime :=
  match cs with
  | ':' :: rest => stMinute y mo dy h12 rest
  | _ => none

/-- `%I`: `1[0-2]|0[1-9]|[1-9]` with backtracking, then `:%M`. -/
def stHour (y mo dy : Nat) (cs : PyStr) : Option PyDateTime :=
  (match cs with
   | c1 :: c2 :: rest =>
     if c1 == '1' && (c2 == '0' || c2 == '1' || c2 == '2') then
       stColonMinute y mo dy (10 + digitVal c2) rest
     else if c1 == '0' && (isDigitChar c2 && c2 != '0') then
       stColonMinute y mo dy (digitVal c2) rest
     else none
   | _ => none) <|>
  (match cs with
   | c1 :: rest =>
     if isDigitChar c1 && c1 != '0' then stColonMinute y mo dy (digitVal c1) rest else none
   | [] => none)

/-- Whitespace of the format (`\s+`) between `%d` and `%I`; `%I` starts with
a digit, so greedily consuming the whitespace run is exact. -/
def stSpaceHour (y mo dy : Nat) (cs : PyStr) : Option PyDateTime :=
  match cs with
  | c :: rest => if isSpace c then stHour y mo dy (rest.dropWhile isSpace) else none
  | [] => none

/-- `%d`: `3[01]|[12]\d|0[1-9]|[1-9]` with backtracking, then `\s+%I:%M`. -/
def stDay (y mo : Nat) (cs : PyStr) : Option PyDateTime :=
  (match cs with
   | c1 :: c2 :: rest =>
     if c1 == '3' && (c2 == '0' || c2 == '1') then
       stSpaceHour y mo (30 + digitVal c2) rest
     else if (c1 == '1' || c1 == '2') && isDigitChar c2 then
       stSpaceHour y mo (10 * digitVal c1 + digitVal c2) rest
     else if c1 == '0' && (isDigitChar c2 && c2 != '0') then
       stSpaceHour y mo (digitVal c2) rest
     else none
   | _ => none) <|>
  (match cs with
   | c1 :: rest =>
     if isDigitChar c1 && c1 != '0' then stSpaceHour y mo (digitVal c1) rest else none
   | [] => none)

/-- Literal `-` of the format, then `%d`. -/
def stDashDay (y mo : Nat) (cs : PyStr) : Option PyDateTime :=
  match cs with
  | '-' :: rest => stDay y mo rest
  | _ => none

/-- `%m`: `1[0-2]|0[1-9]|[1-9]` with backtracking, then `-%d...`. -/
def stMonth (y : Nat) (cs : PyStr) : Option PyDateTime :=
  (match cs with
   | c1 :: c2 :: rest =>
     if c1 == '1' && (c2 == '0' || c2 == '1' || c2 == '2') then
       stDashDay y (10 + digitVal c2) rest
     else if c1 == '0' && (isDigitChar c2 && c2 != '0') then
       stDashDay y (digitVal c2) rest
     else none
   | _ => none) <|>
  (match cs with
   | c1 :: rest =>
     if isDigitChar c1 && c1 != '0' then stDashDay y (digitVal c1) rest else none
   | [] => none)

/-- Entry point of the `strptime` model: `%Y` is exactly four digits, then a
literal `-`, then the rest of the format. -/
def strptimeYmdIMp (s : PyStr) : Option PyDateTime :=
  match s with
  | a :: b :: c :: d :: '-' :: rest =>
    if isDigitChar a && isDigitChar b && isDigitChar c && isDigitChar d then
      stMonth (digitVal a * 1000 + digitVal b * 100 + digitVal c * 10 + digitVal d) rest
    else none
  | _ => none

/-- The `try` body of `parse_date` inside `create_activity_feed`
(competition_scraper.py lines 375-398); `none` stands for a raised
exception, which the `except` turns into `datetime.min`. -/
def parseDateSteps (s : PyStr) : Option PyDateTime :=
  if s = [] ∨ strip s = [] then some datetimeMin
  else
    let s1 := strip (removeSpaceET s)
    match splitOnChar ' ' s1 with
    | [datePart, timePart] =>
      match splitOnChar '/' datePart with
      | [monthStr, dayStr, yearStr] =>
        let fullYear := '2' :: '0' :: yearStr
        let t1 := replaceChar 'p' (" PM".data) (replaceChar 'a' (" AM".data) timePart)
        strptimeYmdIMp (fullYear ++ ('-' :: zfill2 monthStr) ++ ('-' :: zfill2 dayStr) ++ (' ' :: t1))
      | _ => none
    | _ => none

/-- The timestamp normalizer `parse_date` (spec name `normalize_timestamp`):
total, with every parse failure mapped to `datetime.min`. -/
def parse_date (s : PyStr) : PyDateTime :=
  match parseDateSteps s with
  | some d => d
  | none => datetimeMin


/-- The `Transaction` dataclass (identical in both source files). -/
structure Transaction where
  symbol : PyStr
  order_date : PyStr
  transaction_date : PyStr
  action : PyStr
  amount : Int
  price : PyStr
  status : PyStr
deriving DecidableEq, Repr

/-- Identity key used by the deduplicator:
`(t.symbol, t.order_date, t.action, t.amount)`. -/
def txKey (t : Transaction) : PyStr × PyStr × PyStr × Int :=
  (t.symbol, t.order_date, t.action, t.amount)

/-- The seen-set loop of `parse_transactions` (competition_scraper.py lines
202-211), with the `seen` set carried explicitly as a list of keys. -/
def dedupAux (seen : List (PyStr × PyStr × PyStr × Int)) :
    List Transaction → List Transaction
  | [] => []
  | t :: ts =>
    if txKey t ∈ seen then dedupAux seen ts
    else t :: dedupAux (txKey t :: seen) ts

/-- The deduplication phase of `parse_transactions`: one record per distinct
identity key, first occurrence kept. -/
def dedup (ts : List Transaction) : List Transaction := dedupAux [] ts

/-- The action-cell step of `_parse_transaction_table` (lines 230-237):
returns `(action, status)`. -/
def parseActionStatus (actionText : PyStr) : PyStr × PyStr :=
  if containsSub ("Canceled".data) actionText then
    match pySplitWs actionText with
    | tok :: _ => (tok, "Canceled".data)
    | [] => (actionText, "Canceled".data)
  else (actionText, "Completed".data)

/-- The amount-cell step of `_parse_transaction_table` (lines 239-240):
strip, drop commas, parse if all-digit, else 0. -/
def parseAmount (cell : PyStr) : Int :=
  let amountText := replaceChar ',' [] (strip cell)
  if pyIsDigit amountText then (natOfDigits amountText : Int) else 0

/-- The per-row step of `_parse_transaction_table`: rows with fewer than 6
cells are skipped; otherwise a `Transaction` is built from the first six
cells (`get_text(strip=True)` modeled by `strip`). The guarded index and
`int` accesses make the row-level `except` branch unreachable. -/
def parse_row : List PyStr → Option Transaction
  | cell0 :: cell1 :: cell2 :: cell3 :: cell4 :: cell5 :: _ =>
    let ast := parseActionStatus (strip cell3)
    some
      { symbol := strip cell0
        order_date := strip cell1
        transaction_date := strip cell2
        action := ast.1
        amount := parseAmount cell4
        price := strip cell5
        status := ast.2 }
  | _ => none

/-- `_parse_transaction_table`: skip the header row, parse each remaining
row, keep the successful ones. A table is its list of rows, a row its list
of cell texts. -/
def _parse_transaction_table (rows : List (List PyStr)) : List Transaction :=
  (rows.drop 1).filterMap parse_row

/-- The `Competitor` dataclass. -/
structure Competitor where
  public_id : PyStr
  name : PyStr
  rank : Int
  portfolio_value : Rat
  return_percentage : Rat
  return_dollars : Rat
  transactions : List Transaction
  last_updated : PyDateTime
deriving DecidableEq

/-- One activity-feed item (the dict built in `create_activity_feed`). -/
structure Activity where
  timestamp : PyStr
  player_name : PyStr
  player_rank : Int
  action : PyStr
  symbol : PyStr
  amount : Int
  price : PyStr
  portfolio_value : Rat
deriving DecidableEq, Repr

/-- The activity dict built for one (competitor, transaction) pair
(competition_scraper.py lines 361-370). -/
def activityOf (c : Competitor) (t : Transaction) : Activity :=
  { timestamp := t.order_date
    player_name := c.name
    player_rank := c.rank
    action := t.action
    symbol := t.symbol
    amount := t.amount
    price := t.price
    portfolio_value := c.portfolio_value }

/-- The accumulation loop of `create_activity_feed` (lines 355-371): every
transaction of every competitor, skipping status `"Canceled"`. -/
def preFeed (competitors : List Competitor) : List Activity :=
  competitors.flatMap fun c =>
    (c.transactions.filter fun t => decide (t.status ≠ ("Canceled".data))).map (activityOf c)

/-- Sort comparator of the feed: `activities.sort(key=parse_date(timestamp),
reverse=True)` is the stable sort for which `a` precedes `b` exactly when
`parse_date b.timestamp ≤ parse_date a.timestamp`. -/
def feedLe (a b : Activity) : Bool :=
  dtLe (parse_date b.timestamp) (parse_date a.timestamp)

/-- `create_activity_feed` (lines 343-402): build all items, then stable-sort
by normalized timestamp, newest first (Python `list.sort` is a stable sort;
`mergeSort` is the stable sort of the Lean library). -/
def create_activity_feed (competitors : List Competitor) : List Activity :=
  (preFeed competitors).mergeSort feedLe

/-!
Document model for the locator strategies. A parsed document (`soup`) is
modeled by the query results the strategies inspect: its script contents,
all its tables and divs with their class tokens, and its vse-module
elements with their `view` attribute and nested tables.
-/

/-- An HTML table: its class attribute (as the list of class tokens) and its
rows (each row the list of its cell texts). -/
structure Table where
  classAttr : List PyStr
  rows : List (List PyStr)

/-- An HTML div (only its class tokens matter to the strategies). -/
structure Div where
  classAttr : List PyStr

/-- An element with `is="vse-module"`: its `view` attribute (if any) and the
tables nested inside it. -/
structure Module where
  view : Option PyStr
  tables : List Table

/-- The parsed document, as queried by the strategies. Script contents are
`none` when `script.string` is `None`. -/
structure Soup where
  scripts : List (Option PyStr)
  tables : List Table
  divs : List Div
  modules : List Module

/-- Space-joined class attribute, as BeautifulSoup matches a multi-word
class string. -/
def spaceJoin (tokens : List PyStr) : PyStr := List.intercalate [' '] tokens

/-- Matcher for the regex `.*transaction.*|.*order.*|.*trade.*` (re.I),
applied to one class token. -/
def classTokenLoose (tok : PyStr) : Bool :=
  containsSub ("transaction".data) (toLowerStr tok) ||
  containsSub ("order".data) (toLowerStr tok) ||
  containsSub ("trade".data) (toLowerStr tok)

/-- `_parse_transaction_json`: documented stub, returns no transactions. -/
def _parse_transaction_json (_data : PyStr) : List Transaction := []

/-- `_parse_transaction_div`: documented stub, returns no transactions. -/
def _parse_transaction_div (_div : Div) : List Transaction := []

/-- The regex `({.*?})` (DOTALL) searched over a script body: the substring
from the first `\x7b` to the first `\x7d` after it, if both exist. -/
def extractFirstBraced (s : PyStr) : Option PyStr :=
  match s.dropWhile (fun c => c != '{') with
  | [] => none
  | brace :: rest =>
    let body := rest.takeWhile (fun c => c != '}')
    if body.length = rest.length then none
    else some (brace :: (body ++ ['}']))

/-- Contribution of one script element to the script-JSON strategy
(marketwatch_scraper.py lines 353-367). `json.loads` failure is caught and
contributes nothing; success feeds `_parse_transaction_json`, the stub that
returns `[]`, so both outcomes of `loads` contribute the same. -/
def scriptContribution (sc : Option PyStr) : List Transaction :=
  match sc with
  | none => []
  | some c =>
    if !c.isEmpty &&
        (containsSub ("transactions".data) (toLowerStr c) ||
         containsSub ("orders".data) (toLowerStr c)) then
      match extractFirstBraced c with
      | some js => _parse_transaction_json js
      | none => []
    else []

/-- The table lookup of `_parse_transactions` (lines 371-374): first table
whose joined class equals `"table table--primary ranking"`, else first
table with a class token matching the loose regex. -/
def findTransactionTable (soup : Soup) : Option Table :=
  match soup.tables.find? (fun t => spaceJoin t.classAttr == ("table table--primary ranking".data)) with
  | some t => some t
  | none => soup.tables.find? (fun t => t.classAttr.any classTokenLoose)

/-- Strategy 1 of `_parse_transactions`: scan every script element. -/
def scriptStrategy (soup : Soup) : List Transaction :=
  soup.scripts.flatMap scriptContribution

/-- Strategy 2 of `_parse_transactions`: parse the one located table, if
any. -/
def tableStrategy (soup : Soup) : List Transaction :=
  match findTransactionTable soup with
  | some t => _parse_transaction_table t.rows
  | none => []

/-- Strategy 3 of `_parse_transactions`: scan divs whose class matches the
loose regex (feeds the `_parse_transaction_div` stub). -/
def divStrategy (soup : Soup) : List Transaction :=
  (soup.divs.filter fun d => d.classAttr.any classTokenLoose).flatMap _parse_transaction_div

/-- Strategy 4 of `_parse_transactions`: all tables inside vse-modules with
`view="transactions"`. -/
def moduleStrategy (soup : Soup) : List Transaction :=
  (soup.modules.filter fun m => m.view == some ("transactions".data)).flatMap
    fun m => m.tables.flatMap fun t => _parse_transaction_table t.rows

/-- `_parse_transactions` (marketwatch_scraper.py lines 352-395, non-debug
path), translated as the sequential source `transactions.extend` loop. -/
def _parse_transactions (soup : Soup) : List Transaction :=
  let tx1 : List Transaction := soup.scripts.flatMap scriptContribution
  let tx2 := tx1 ++
    (match findTransactionTable soup with
     | some t => _parse_transaction_table t.rows
     | none => [])
  let tx3 := tx2 ++
    (soup.divs.filter fun d => d.classAttr.any classTokenLoose).flatMap _parse_transaction_div
  let tx4 := tx3 ++
    (soup.modules.filter fun m => m.view == some ("transactions".data)).flatMap
      (fun m => m.tables.flatMap fun t => _parse_transaction_table t.rows)
  tx4

/-- Strategy 1 of the multi-competitor `parse_transactions` (lines 180-186):
tables with class token `table--primary` inside vse-modules with
`view="transactions"`. -/
def vseModuleStrategy (soup : Soup) : List Transaction :=
  (soup.modules.filter fun m => m.view == some ("transactions".data)).flatMap
    fun m =>
      (m.tables.filter fun t => t.classAttr.contains ("table--primary".data)).flatMap
        fun t => _parse_transaction_table t.rows

/-- Header sniff of strategy 2 (lines 191-199): the first row of the table
must have a cell containing `"Symbol"` and a cell containing `"Order"`. -/
def headerSniff (t : Table) : Bool :=
  match t.rows with
  | [] => false
  | hdr :: _ =>
    (hdr.any fun cell => containsSub ("Symbol".data) (strip cell)) &&
    (hdr.any fun cell => containsSub ("Order".data) (strip cell))

/-- Strategy 2 of `parse_transactions` (lines 189-200): tables with class
token `table--primary` or `ranking` that pass the header sniff. -/
def headerSniffStrategy (soup : Soup) : List Transaction :=
  (soup.tables.filter fun t =>
      (t.classAttr.contains ("table--primary".data) ||
       t.classAttr.contains ("ranking".data)) && headerSniff t).flatMap
    fun t => _parse_transaction_table t.rows

/-- `parse_transactions` (competition_scraper.py lines 167-211): both
strategies run unconditionally, their results are concatenated, then the
deduplicator runs. -/
def parse_transactions (soup : Soup) : List Transaction :=
  let tx1 : List Transaction :=
    (soup.modules.filter fun m => m.view == some ("transactions".data)).flatMap
      fun m =>
        (m.tables.filter fun t => t.classAttr.contains ("table--primary".data)).flatMap
          fun t => _parse_transaction_table t.rows
  let tx2 := tx1 ++
    (soup.tables.filter fun t =>
        (t.classAttr.contains ("table--primary".data) ||
         t.classAttr.contains ("ranking".data)) && headerSniff t).flatMap
      (fun t => _parse_transaction_table t.rows)
  dedup tx2

/-- A CSV row as produced by `csv.DictReader`: a map from column name to
cell text. -/
abbrev CsvRow := PyStr → Option PyStr

/-- Python `row.get(key, default)`. -/
def csvRowGet (row : CsvRow) (key dflt : PyStr) : PyStr := (row key).getD dflt

/-- The per-row body of `_parse_transactions_csv` (marketwatch_scraper.py
lines 285-297): note `status` is hardcoded to `"Completed"`. -/
def csvRowToTransaction (row : CsvRow) : Transaction :=
  { symbol := csvRowGet row ("Symbol".data) []
    order_date := csvRowGet row ("Order Date/Time".data) []
    transaction_date := csvRowGet row ("Transaction Date/Time".data) []
    action := csvRowGet row ("Type".data) []
    amount :=
      let a := replaceChar ',' [] (csvRowGet row ("Amount".data) ("0".data))
      if pyIsDigit a then (natOfDigits a : Int) else 0
    price := csvRowGet row ("Ex. Price".data) []
    status := "Completed".data }

/-- `_parse_transactions_csv`: one `Transaction` per CSV row. -/
def _parse_transactions_csv (rows : List CsvRow) : List Transaction :=
  rows.map csvRowToTransaction

/-!
Concrete data used by witnesses and by the concrete parts of the claims
(taken from the testable properties of the spec).
-/

/-- First of the two concrete dedup rows of the spec (price `$150.00`). -/
def txDupFirst : Transaction :=
  { symbol := "AAPL".data
    order_date := "7/9/25 10:45a ET".data
    transaction_date := "7/9/25 10:46a ET".data
    action := "Buy".data
    amount := 100
    price := "$150.00".data
    status := "Completed".data }

/-- Second concrete dedup row: same identity key, price `$150.01`. -/
def txDupSecond : Transaction :=
  { txDupFirst with price := "$150.01".data }

/-- Feed-sort demo transaction, `order_date` `7/9/25 10:45a ET`. -/
def txFeedA : Transaction :=
  { txDupFirst with symbol := "AAPL".data }

/-- Feed-sort demo transaction, `order_date` `7/8/25 9:00a ET`. -/
def txFeedB : Transaction :=
  { txDupFirst with symbol := "MSFT".data, order_date := "7/8/25 9:00a ET".data }

/-- Feed-sort demo transaction, `order_date` `7/9/25 2:00p ET`. -/
def txFeedC : Transaction :=
  { txDupFirst with symbol := "TSLA".data, order_date := "7/9/25 2:00p ET".data }

/-- Competitor holding the three sort-demo transactions in scraped order. -/
def demoCompetitor : Competitor :=
  { public_id := "p1".data
    name := "Alice Example".data
    rank := 1
    portfolio_value := 100000
    return_percentage := 0
    return_dollars := 0
    transactions := [txFeedA, txFeedB, txFeedC]
    last_updated := datetimeMin }

/-- Tie demo: same `order_date` as `txFeedA`, different symbol. -/
def txTieLater : Transaction :=
  { txDupFirst with symbol := "NVDA".data }

/-- Competitor holding two transactions with identical timestamps. -/
def tieCompetitor : Competitor :=
  { demoCompetitor with transactions := [txFeedA, txTieLater] }

/-- A canceled transaction (for the feed-exclusion witness). -/
def txCanceledDemo : Transaction :=
  { txDupFirst with symbol := "GME".data, status := "Canceled".data, price := "N/A".data }

/-- Competitor holding one canceled and one completed transaction. -/
def mixedCompetitor : Competitor :=
  { demoCompetitor with transactions := [txCanceledDemo, txFeedB] }

/-- A CSV row whose `Type` column contains `"Canceled"`. -/
def demoCsvRow : CsvRow := fun k =>
  if k = ("Symbol".data) then some ("GME".data)
  else if k = ("Order Date/Time".data) then some ("7/9/25 10:45a ET".data)
  else if k = ("Type".data) then some ("Buy Canceled".data)
  else if k = ("Amount".data) then some ("1,000".data)
  else none

/-!
Helper lemmas.
-/

theorem dtLe_trans (a b c : PyDateTime) : dtLe a b → dtLe b c → dtLe a c := by
  simp only [dtLe, decide_eq_true_eq]
  omega

theorem dtLe_total (a b : PyDateTime) : dtLe a b || dtLe b a := by
  simp only [dtLe, Bool.or_eq_true, decide_eq_true_eq]
  omega

theorem feedLe_trans (a b c : Activity) : feedLe a b → feedLe b c → feedLe a c :=
  fun h1 h2 => dtLe_trans _ _ _ h2 h1

theorem feedLe_total (a b : Activity) : feedLe a b || feedLe b a :=
  dtLe_total _ _

theorem parse_date_concrete :
    parse_date ("7/9/25 10:45a ET".data) = ⟨2025, 7, 9, 10, 45⟩ ∧
    parse_date ("7/9/25 2:00p ET".data) = ⟨2025, 7, 9, 14, 0⟩ ∧
    parse_date ("7/8/25 9:00a ET".data) = ⟨2025, 7, 8, 9, 0⟩ ∧
    parse_date ("1/1/25 12:00a ET".data) = ⟨2025, 1, 1, 0, 0⟩ ∧
    parse_date ("12/31/99 11:59p ET".data) = ⟨2099, 12, 31, 23, 59⟩ ∧
    parse_date ("2/30/25 1:00p ET".data) = datetimeMin ∧
    parse_date ("13/1/25 1:00p ET".data) = datetimeMin ∧
    parse_date ("7/9/25  10:45a ET".data) = datetimeMin := by
  decide

theorem dedupAux_sublist (l : List Transaction) :
    ∀ seen, (dedupAux seen l).Sublist l := by
  induction l with
  | nil => intro seen; simp [dedupAux]
  | cons t ts ih =>
    intro seen
    by_cases h : txKey t ∈ seen
    · simp only [dedupAux, if_pos h]
      exact (ih seen).cons t
    · simp only [dedupAux, if_neg h]
      exact (ih (txKey t :: seen)).cons₂ t

theorem dedupAux_key_not_mem (l : List Transaction) :
    ∀ seen, ∀ r ∈ dedupAux seen l, txKey r ∉ seen := by
  induction l with
  | nil => intro seen r hr; simp [dedupAux] at hr
  | cons t ts ih =>
    intro seen r hr
    by_cases h : txKey t ∈ seen
    · rw [dedupAux, if_pos h] at hr
      exact ih seen r hr
    · rw [dedupAux, if_neg h] at hr
      rcases List.mem_cons.mp hr with rfl | hr'
      · exact h
      · intro hseen
        exact ih (txKey t :: seen) r hr' (List.mem_cons_of_mem _ hseen)

theorem dedupAux_keys_nodup (l : List Transaction) :
    ∀ seen, ((dedupAux seen l).map txKey).Nodup := by
  induction l with
  | nil => intro seen; simp [dedupAux]
  | cons t ts ih =>
    intro seen
    by_cases h : txKey t ∈ seen
    · rw [dedupAux, if_pos h]; exact ih seen
    · rw [dedupAux, if_neg h]
      simp only [List.map_cons, List.nodup_cons]
      refine ⟨?_, ih _⟩
      intro hmem
      rcases List.mem_map.mp hmem with ⟨r, hr, hkey⟩
      exact dedupAux_key_not_mem ts (txKey t :: seen) r hr (hkey ▸ List.mem_cons_self _ _)

theorem dedupAux_exists_key (l : List Transaction) :
    ∀ seen, ∀ t ∈ l, txKey t ∉ seen → ∃ r ∈ dedupAux seen l, txKey r = txKey t := by
  induction l with
  | nil => intro seen t ht; exact absurd ht (List.not_mem_nil t)
  | cons u us ih =>
    intro seen t ht hts
    by_cases h : txKey u ∈ seen
    · rw [dedupAux, if_pos h]
      rcases List.mem_cons.mp ht with rfl | ht'
      · exact absurd h hts
      · exact ih seen t ht' hts
    · rw [dedupAux, if_neg h]
      rcases List.mem_cons.mp ht with rfl | ht'
      · exact ⟨t, List.mem_cons_self _ _, rfl⟩
      · by_cases hk : txKey t = txKey u
        · exact ⟨u, List.mem_cons_self _ _, hk.symm⟩
        · obtain ⟨r, hr, hkey⟩ := ih (txKey u :: seen) t ht' (by
            intro hmem
            rcases List.mem_cons.mp hmem with h1 | h2
            · exact hk h1
            · exact hts h2)
          exact ⟨r, List.mem_cons_of_mem _ hr, hkey⟩

theorem dedupAux_find_first (l : List Transaction) :
    ∀ seen, ∀ r ∈ dedupAux seen l,
      l.find? (fun t => decide (txKey t = txKey r)) = some r := by
  induction l with
  | nil => intro seen r hr; simp [dedupAux] at hr
  | cons u us ih =>
    intro seen r hr
    by_cases h : txKey u ∈ seen
    · rw [dedupAux, if_pos h] at hr
      have hne : txKey u ≠ txKey r := by
        intro he
        exact dedupAux_key_not_mem us seen r hr (he ▸ h)
      rw [List.find?_cons_of_neg _ (by simpa using hne)]
      exact ih seen r hr
    · rw [dedupAux, if_neg h] at hr
      rcases List.mem_cons.mp hr with rfl | hr'
      · rw [List.find?_cons_of_pos _ (by simp)]
      · have hnr : txKey r ∉ txKey u :: seen := dedupAux_key_not_mem us _ r hr'
        have hne : txKey u ≠ txKey r := fun he => hnr (he ▸ List.mem_cons_self _ _)
        rw [List.find?_cons_of_neg _ (by simpa using hne)]
        exact ih _ r hr'

theorem dedupAux_idem (l : List Transaction) :
    ∀ seen, dedupAux seen (dedupAux seen l) = dedupAux seen l := by
  induction l with
  | nil => intro seen; simp [dedupAux]
  | cons t ts ih =>
    intro seen
    by_cases h : txKey t ∈ seen
    · rw [dedupAux, if_pos h, ih seen]
    · rw [dedupAux, if_neg h, dedupAux, if_neg h, ih (txKey t :: seen)]

theorem pySplitWsAux_ne_nil (l : PyStr) :
    ∀ acc, (acc.isEmpty = false ∨ ∃ c ∈ l, isSpace c = false) →
      pySplitWsAux acc l ≠ [] := by
  induction l with
  | nil =>
    intro acc h
    rcases h with h | ⟨c, hc, _⟩
    · simp [pySplitWsAux, h]
    · exact absurd hc (List.not_mem_nil c)
  | cons c cs ih =>
    intro acc h
    by_cases hc : isSpace c = true
    · rw [pySplitWsAux, if_pos hc]
      by_cases ha : acc.isEmpty = true
      · rw [ha]
        simp only [if_true, List.nil_append]
        apply ih []
        right
        rcases h with h | ⟨d, hd, hds⟩
        · rw [ha] at h; simp at h
        · rcases List.mem_cons.mp hd with rfl | hd'
          · rw [hc] at hds; exact absurd hds (by simp)
          · exact ⟨d, hd', hds⟩
      · rw [Bool.not_eq_true] at ha
        rw [ha]
        simp [List.append_eq_nil]
    · rw [pySplitWsAux, if_neg hc]
      apply ih (c :: acc)
      left
      rfl

theorem containsSub_canceled_nonspace (l : PyStr) :
    containsSub ("Canceled".data) l = true → ∃ c ∈ l, isSpace c = false := by
  induction l with
  | nil => intro h; exact absurd h (by decide)
  | cons c cs ih =>
    intro h
    rw [containsSub, Bool.or_eq_true] at h
    rcases h with h | h
    · have hd : ("Canceled".data) = 'C' :: ("anceled".data) := rfl
      rw [hd, List.isPrefixOf] at h
      have hc : c = 'C' := by
        have h1 := (Bool.and_eq_true _ _).mp h |>.1
        have h2 : 'C' = c := by simpa using h1
        exact h2.symm
      exact ⟨c, List.mem_cons_self _ _, by rw [hc]; decide⟩
    · obtain ⟨d, hd, hds⟩ := ih h
      exact ⟨d, List.mem_cons_of_mem _ hd, hds⟩

/-!
The claims.
-/

/-- C1: for every transaction list, `dedup` (the final phase of
`parse_transactions`) returns a sublist of the input (hence in order of
first occurrence) with pairwise-distinct identity keys, covering every key
of the input, and each returned record is the first record of the input
with its key (so the first-seen values for `price`, `transaction_date` and
`status` win). -/
theorem claim_C1 (T : List Transaction) :
    (dedup T).Sublist T ∧
    ((dedup T).map txKey).Nodup ∧
    (∀ t ∈ T, ∃ r ∈ dedup T, txKey r = txKey t) ∧
    (∀ r ∈ dedup T, T.find? (fun t => decide (txKey t = txKey r)) = some r) := by
  refine ⟨dedupAux_sublist T [], dedupAux_keys_nodup T [], ?_, ?_⟩
  · intro t ht
    exact dedupAux_exists_key T [] t ht (List.not_mem_nil _)
  · intro r hr
    exact dedupAux_find_first T [] r hr

/-- Witness for C1, on the concrete pair of rows from the spec that differ only in
`price`: the key of the duplicate is represented, and the representative of the
key of the first row is the first row itself (price `$150.00` wins). -/
theorem witness_C1 :
    (∃ r ∈ dedup [txDupFirst, txDupSecond], txKey r = txKey txDupSecond) ∧
    [txDupFirst, txDupSecond].find?
      (fun t => decide (txKey t = txKey txDupFirst)) = some txDupFirst :=
  ⟨(claim_C1 [txDupFirst, txDupSecond]).2.2.1 txDupSecond (by decide),
   (claim_C1 [txDupFirst, txDupSecond]).2.2.2 txDupFirst (by decide)⟩

/-- C2: the timestamp normalizer `parse_date` is a total function; every
input on which its parse steps fail (the raised exception, modeled by
`parseDateSteps = none`) maps to `datetime.min`, and so do the empty string
and garbage text. -/
theorem claim_C2 (s : PyStr) :
    (parseDateSteps s = none → parse_date s = datetimeMin) ∧
    parse_date [] = datetimeMin ∧
    parse_date ("no timestamp here".data) = datetimeMin := by
  refine ⟨?_, by decide, by decide⟩
  intro h
  simp [parse_date, h]

/-- Witness for C2 at a concrete garbage input on which the parse steps
fail. -/
theorem witness_C2 :
    parseDateSteps ("not a date".data) = none ∧
    parse_date ("not a date".data) = datetimeMin :=
  ⟨by decide, (claim_C2 ("not a date".data)).1 (by decide)⟩

/-- C3: the activity feed is a permutation of the list holding exactly one
item per non-canceled transaction of each competitor; every feed item stems
from a non-canceled transaction; every non-canceled transaction appears;
and each item carries the fields of the transaction plus the owning
name, rank and portfolio value. -/
theorem claim_C3 (cs : List Competitor) :
    (create_activity_feed cs).Perm (preFeed cs) ∧
    (∀ a ∈ create_activity_feed cs, ∃ c ∈ cs, ∃ t ∈ c.transactions,
        t.status ≠ ("Canceled".data) ∧ a = activityOf c t) ∧
    (∀ c ∈ cs, ∀ t ∈ c.transactions, t.status ≠ ("Canceled".data) →
        activityOf c t ∈ create_activity_feed cs) ∧
    (∀ (c : Competitor) (t : Transaction),
        (activityOf c t).timestamp = t.order_date ∧
        (activityOf c t).player_name = c.name ∧
        (activityOf c t).player_rank = c.rank ∧
        (activityOf c t).action = t.action ∧
        (activityOf c t).symbol = t.symbol ∧
        (activityOf c t).amount = t.amount ∧
        (activityOf c t).price = t.price ∧
        (activityOf c t).portfolio_value = c.portfolio_value) := by
  refine ⟨List.mergeSort_perm _ _, ?_, ?_,
    fun c t => ⟨rfl, rfl, rfl, rfl, rfl, rfl, rfl, rfl⟩⟩
  · intro a ha
    rw [create_activity_feed, List.mem_mergeSort] at ha
    simp only [preFeed, List.mem_flatMap, List.mem_map, List.mem_filter,
      decide_eq_true_eq] at ha
    obtain ⟨c, hc, t, ⟨ht, hstat⟩, rfl⟩ := ha
    exact ⟨c, hc, t, ht, hstat, rfl⟩
  · intro c hc t ht hstat
    rw [create_activity_feed, List.mem_mergeSort]
    simp only [preFeed, List.mem_flatMap, List.mem_map, List.mem_filter,
      decide_eq_true_eq]
    exact ⟨c, hc, t, ⟨ht, hstat⟩, rfl⟩

/-- Witness for C3: for a competitor holding one canceled and one completed
transaction, the item of the completed one is in the feed. -/
theorem witness_C3 :
    activityOf mixedCompetitor txFeedB ∈ create_activity_feed [mixedCompetitor] :=
  (claim_C3 [mixedCompetitor]).2.2.1 mixedCompetitor (by decide) txFeedB (by decide)
    (by decide)

/-- C4: the feed is sorted descending by the normalized `order_date`
(pairwise, `parse_date` of a later item is ≤ that of an earlier one); the
sort is stable (any comparator-sorted sublist of the unsorted item list,
in particular any run of equal timestamps in input order, survives as a
sublist of the feed); and on the three concrete timestamps of the spec the feed
comes out newest-first. -/
theorem claim_C4 :
    (∀ cs : List Competitor, (create_activity_feed cs).Pairwise
        (fun a b => dtLe (parse_date b.timestamp) (parse_date a.timestamp) = true)) ∧
    (∀ (cs : List Competitor) (p : List Activity),
        p.Pairwise (fun a b => feedLe a b = true) →
        p.Sublist (preFeed cs) → p.Sublist (create_activity_feed cs)) ∧
    (create_activity_feed [demoCompetitor]).map (fun a => a.timestamp) =
      ["7/9/25 2:00p ET".data, "7/9/25 10:45a ET".data, "7/8/25 9:00a ET".data] := by
  refine ⟨?_, ?_, ?_⟩
  · intro cs
    exact List.sorted_mergeSort (fun a b c => feedLe_trans a b c)
      (fun a b => feedLe_total a b) (preFeed cs)
  · intro cs p hp hs
    exact List.sublist_mergeSort (fun a b c => feedLe_trans a b c)
      (fun a b => feedLe_total a b) hp hs
  · have h : preFeed [demoCompetitor] =
        [activityOf demoCompetitor txFeedA, activityOf demoCompetitor txFeedB,
         activityOf demoCompetitor txFeedC] := by decide
    rw [create_activity_feed, h]
    simp +decide [List.mergeSort, List.merge]

/-- Witness for C4: two items with identical timestamps keep their input
order in the feed (stability instance). -/
theorem witness_C4 :
    [activityOf tieCompetitor txFeedA, activityOf tieCompetitor txTieLater].Sublist
      (create_activity_feed [tieCompetitor]) := by
  apply claim_C4.2.1 [tieCompetitor]
  · constructor
    · intro b hb
      rw [List.mem_singleton] at hb
      rw [hb]
      decide
    · constructor
      · intro b hb
        exact absurd hb (List.not_mem_nil b)
      · exact List.Pairwise.nil
  · have h : preFeed [tieCompetitor] =
        [activityOf tieCompetitor txFeedA, activityOf tieCompetitor txTieLater] := by
      decide
    rw [h]

/-- C5: the per-row step of `_parse_transaction_table` yields no transaction
for a row with fewer than 6 cells, and for a row with 6 or more cells it
yields exactly one transaction, built from the first six cells only. -/
theorem claim_C5 :
    (∀ cells : List PyStr, cells.length < 6 → parse_row cells = none) ∧
    (∀ cells : List PyStr, 6 ≤ cells.length →
      parse_row cells = parse_row (cells.take 6) ∧ (parse_row cells).isSome = true) := by
  constructor
  · intro cells h
    rcases cells with _ | ⟨a, _ | ⟨b, _ | ⟨c, _ | ⟨d, _ | ⟨e, _ | ⟨f, rest⟩⟩⟩⟩⟩⟩
    · rfl
    · rfl
    · rfl
    · rfl
    · rfl
    · rfl
    · simp only [List.length_cons] at h
      omega
  · intro cells h
    rcases cells with _ | ⟨a, _ | ⟨b, _ | ⟨c, _ | ⟨d, _ | ⟨e, _ | ⟨f, rest⟩⟩⟩⟩⟩⟩ <;>
      first
        | (exact ⟨rfl, rfl⟩)
        | (simp only [List.length_cons, List.length_nil] at h; omega)

/-- Witness for C5: a 5-cell row is skipped, a 7-cell row yields a
transaction and ignores its seventh cell. -/
theorem witness_C5 :
    parse_row ["AAPL".data, "a".data, "b".data, "Buy".data, "100".data] = none ∧
    parse_row ["AAPL".data, "a".data, "b".data, "Buy".data, "100".data,
        "$1.00".data, "extra".data] =
      parse_row (["AAPL".data, "a".data, "b".data, "Buy".data, "100".data,
        "$1.00".data, "extra".data].take 6) :=
  ⟨claim_C5.1 _ (by decide),
   (claim_C5.2 ["AAPL".data, "a".data, "b".data, "Buy".data, "100".data,
      "$1.00".data, "extra".data] (by decide)).1⟩

/-- C6: the amount conversion is total; when the stripped, comma-free cell
text is all-digit the amount is its base-10 value (a non-negative integer),
otherwise the amount is 0. -/
theorem claim_C6 (s : PyStr) :
    (pyIsDigit (replaceChar ',' [] (strip s)) = true →
      parseAmount s = (natOfDigits (replaceChar ',' [] (strip s)) : Int) ∧
      0 ≤ parseAmount s) ∧
    (pyIsDigit (replaceChar ',' [] (strip s)) = false → parseAmount s = 0) := by
  constructor
  · intro h
    refine ⟨by simp [parseAmount, h], ?_⟩
    simp only [parseAmount, h, if_true]
    exact Int.natCast_nonneg _
  · intro h
    simp [parseAmount, h]

/-- Witness for C6: a thousands-separated amount parses, a non-digit amount
is 0. -/
theorem witness_C6 :
    parseAmount (" 1,234 ".data) = 1234 ∧ parseAmount ("N/A".data) = 0 :=
  ⟨((claim_C6 (" 1,234 ".data)).1 (by decide)).1.trans (by decide),
   (claim_C6 ("N/A".data)).2 (by decide)⟩

/-- C7: on an action-cell text containing `"Canceled"` the parsed action is
the first whitespace-delimited token and the status is `"Canceled"`;
otherwise the action is the full trimmed text and the status is
`"Completed"`; and `parse_row` takes its `action`/`status` fields from
exactly this step applied to the trimmed fourth cell. -/
theorem claim_C7 (txt : PyStr) :
    (containsSub ("Canceled".data) txt = true →
      ∃ tok rest, pySplitWs txt = tok :: rest ∧
        parseActionStatus txt = (tok, "Canceled".data)) ∧
    (containsSub ("Canceled".data) txt = false →
      parseActionStatus txt = (txt, "Completed".data)) ∧
    (∀ (cells : List PyStr) (t : Transaction), parse_row cells = some t →
      t.action = (parseActionStatus (strip (cells.getD 3 []))).1 ∧
      t.status = (parseActionStatus (strip (cells.getD 3 []))).2) := by
  refine ⟨?_, ?_, ?_⟩
  · intro h
    have h2 : pySplitWs txt ≠ [] := by
      apply pySplitWsAux_ne_nil txt []
      exact Or.inr (containsSub_canceled_nonspace txt h)
    rcases hsplit : pySplitWs txt with _ | ⟨tok, rest⟩
    · exact absurd hsplit h2
    · refine ⟨tok, rest, rfl, ?_⟩
      rw [parseActionStatus, if_pos h, hsplit]
  · intro h
    rw [parseActionStatus, if_neg (by simp [h])]
  · intro cells t ht
    rcases cells with _ | ⟨a, _ | ⟨b, _ | ⟨c, _ | ⟨d, _ | ⟨e, _ | ⟨f, rest⟩⟩⟩⟩⟩⟩ <;>
      simp only [parse_row, Option.some.injEq, reduceCtorEq] at ht
    subst ht
    exact ⟨rfl, rfl⟩

/-- Witness for C7: a canceled action cell splits off its verb, a plain
action cell is kept whole. -/
theorem witness_C7 :
    (∃ tok rest, pySplitWs ("Buy Canceled".data) = tok :: rest ∧
      parseActionStatus ("Buy Canceled".data) = (tok, "Canceled".data)) ∧
    parseActionStatus ("Buy".data) = ("Buy".data, "Completed".data) :=
  ⟨(claim_C7 ("Buy Canceled".data)).1 (by decide),
   (claim_C7 ("Buy".data)).2.1 (by decide)⟩

/-- C9: both locators run all of their strategies unconditionally: the
single-portfolio `_parse_transactions` returns the concatenation of the
script-JSON scan, the class-matched table, the div scan and the vse-module
scan, and the multi-competitor `parse_transactions` deduplicates the
concatenation of the vse-module scan and the header-sniff scan. -/
theorem claim_C9 (soup : Soup) :
    _parse_transactions soup =
      scriptStrategy soup ++ tableStrategy soup ++ divStrategy soup ++
        moduleStrategy soup ∧
    parse_transactions soup =
      dedup (vseModuleStrategy soup ++ headerSniffStrategy soup) := by
  constructor
  · simp only [_parse_transactions, scriptStrategy, tableStrategy, divStrategy,
      moduleStrategy, List.append_assoc]
  · simp only [parse_transactions, vseModuleStrategy, headerSniffStrategy]

/-- C10: every transaction produced by the CSV path has status
`"Completed"`, whatever the row contains. -/
theorem claim_C10 (rows : List CsvRow) :
    ∀ t ∈ _parse_transactions_csv rows, t.status = ("Completed".data) := by
  intro t ht
  rcases List.mem_map.mp ht with ⟨r, _, rfl⟩
  rfl

/-- Witness for C10: a CSV row whose `Type` column contains `"Canceled"`
still yields status `"Completed"`. -/
theorem witness_C10 :
    containsSub ("Canceled".data) (csvRowGet demoCsvRow ("Type".data) []) = true ∧
    (csvRowToTransaction demoCsvRow).status = ("Completed".data) :=
  ⟨by decide,
   claim_C10 [demoCsvRow] (csvRowToTransaction demoCsvRow)
     (List.mem_cons_self _ _)⟩

/-- C8: the deduplicator is idempotent. -/
theorem claim_C8 (T : List Transaction) : dedup (dedup T) = dedup T :=
  dedupAux_idem T []

end MW
